import Mathlib

/-!
Shallow embedding of the fat32 read-only FAT32 driver (crate fat32) and
proofs about its volume engine, sector cache, MBR decoder, directory
decoder and file facade.

Conventions of the embedding:
* Rust machine integers are modelled as Nat; wrapping or casting is made
  explicit with modular arithmetic where the source relies on it.
* Byte buffers are List Nat, with every byte reduced mod 256 at the point
  where the source reads it from the device.
* Fallible Rust functions returning io::Result are modelled with the
  Outcome type below; a Rust panic (unwrap on None, unimplemented) is the
  dedicated constructor Outcome.panic, and exhaustion of the explicit
  fuel that replaces an unbounded Rust loop is Outcome.nofuel.
* The Device type models the logical-sector view that CachedDevice
  presents to VFat: byte o of logical sector s.  Reads are total, which
  embeds runs in which every underlying device read succeeds.
-/

set_option autoImplicit false

namespace Fat32

/-- Error kinds of std::io::ErrorKind that the driver produces. -/
inductive IoError where
  | invalidData
  | invalidInput
  | notFound
  | unsupported
  | ioFailure
  deriving Repr, DecidableEq

/-- Result of running a fallible piece of the driver: normal return,
an io error, a Rust panic, or exhaustion of the fuel bounding a loop. -/
inductive Outcome (α : Type) where
  | ok (val : α)
  | error (e : IoError)
  | panic
  | nofuel

/-- The logical-sector view of the storage device, as served by
CachedDevice.get: byte offset o of logical sector s. -/
structure Device where
  byte : Nat → Nat → Nat

/-- A byte as read from the device, reduced to the u8 range. -/
def byteAt (d : Device) (s o : Nat) : Nat := d.byte s o % 256

/-- LittleEndian::read_u32 on the four device bytes starting at
sector s, offset off. -/
def readU32 (d : Device) (s off : Nat) : Nat :=
  byteAt d s off + 256 * byteAt d s (off + 1) +
    65536 * byteAt d s (off + 2) + 16777216 * byteAt d s (off + 3)

/-- Status of a FAT entry.  Modelled from the spec: the file of the vfat
module defining Cluster, FatEntry and Status is not present under src/,
only its users are; spec section 3 gives the closed classification. -/
inductive Status where
  | free
  | reserved
  | data (next : Nat)
  | bad
  | eoc (marker : Nat)
  deriving Repr, DecidableEq

/-- Modelled from the spec: classification of the 32-bit FAT entry value,
masked to its 28 significant bits; Free is 0, Reserved is below 2,
Bad is 0x0FFFFFF7, Eoc is any value at least 0x0FFFFFF8, and every
remaining value is Data pointing at the next cluster of the chain. -/
def FatEntry.status (raw : Nat) : Status :=
  let v := raw % 2 ^ 28
  if v = 0 then .free
  else if v < 2 then .reserved
  else if v = 0x0FFFFFF7 then .bad
  else if 0x0FFFFFF8 ≤ v then .eoc v
  else .data v

/-- The VFat volume engine (struct VFat in vfat.rs), carrying the cached
device and the geometry derived from the EBPB. -/
structure VFat where
  device : Device
  bytes_per_sector : Nat
  sectors_per_cluster : Nat
  sectors_per_fat : Nat
  fat_start_sector : Nat
  data_start_sector : Nat
  root_dir_cluster : Nat

/-- VFat::fat_entry: locate the FAT slot of a cluster and decode the raw
little-endian 32-bit value stored there. -/
def VFat.fatEntry (v : VFat) (cluster : Nat) : Nat :=
  let entries_per_sector := v.bytes_per_sector / 4
  let fat_sector_index := cluster / entries_per_sector
  let fat_entry_index := cluster % entries_per_sector
  let idx := fat_entry_index * 4
  readU32 v.device (v.fat_start_sector + fat_sector_index) idx

/-- The bytes of one logical sector, as VFat::read_cluster obtains them:
bytes_per_sector bytes copied by CachedDevice::read_sector. -/
def VFat.sectorBytes (v : VFat) (s : Nat) : List Nat :=
  (List.range v.bytes_per_sector).map (fun o => byteAt v.device s o)

/-- VFat::read_cluster: translate the cluster to its first data sector
(data_start_sector + (cluster saturating-sub 2) * sectors_per_cluster,
with Nat subtraction embedding saturating_sub) and read
sectors_per_cluster consecutive sectors. -/
def VFat.readCluster (v : VFat) (cluster : Nat) : List Nat :=
  let start := v.data_start_sector + (cluster - 2) * v.sectors_per_cluster
  ((List.range v.sectors_per_cluster).map (fun i => v.sectorBytes (start + i))).flatten

/-- In-place write of the slice d into l starting at offset off, the
effect of read_cluster filling the sub-slice of the resized vector. -/
def listWrite {α : Type} (l : List α) (off : Nat) (d : List α) : List α :=
  l.take off ++ d ++ l.drop (off + d.length)

/-- The loop body of VFat::read_chain, with explicit fuel standing in for
the unbounded Rust loop.  buf is the output vector, bytesRead the running
count; each step resizes buf by one cluster of zero bytes and overwrites
the slice starting at bytesRead with the bytes of the current cluster. -/
def VFat.readChainLoop (v : VFat) :
    Nat → Nat → List Nat → Nat → Outcome (List Nat × Nat)
  | 0, _, _, _ => .nofuel
  | fuel + 1, cursor, buf, bytesRead =>
    match FatEntry.status (v.fatEntry cursor) with
    | .data next =>
      let resized := buf ++
        List.replicate (v.bytes_per_sector * v.sectors_per_cluster) 0
      let cbytes := v.readCluster cursor
      v.readChainLoop fuel next (listWrite resized bytesRead cbytes)
        (bytesRead + cbytes.length)
    | .eoc _ =>
      let resized := buf ++
        List.replicate (v.bytes_per_sector * v.sectors_per_cluster) 0
      let cbytes := v.readCluster cursor
      .ok (listWrite resized bytesRead cbytes, bytesRead + cbytes.length)
    | _ => .error .invalidData

/-- VFat::read_chain: run the chain-following loop on the caller's buffer
with a zero byte count. -/
def VFat.readChain (v : VFat) (fuel start : Nat) (buf : List Nat) :
    Outcome (List Nat × Nat) :=
  v.readChainLoop fuel start buf 0

/-- A cluster list is a well-formed chain in the FAT of v: every cluster
links by a Data entry to the next one and the final cluster carries an
Eoc entry. -/
def chainOK (v : VFat) : List Nat → Bool
  | [] => false
  | [c] =>
    match FatEntry.status (v.fatEntry c) with
    | .eoc _ => true
    | _ => false
  | c :: c2 :: rest =>
    match FatEntry.status (v.fatEntry c) with
    | .data next => next = c2 && chainOK v (c2 :: rest)
    | _ => false

/-- A cluster list whose Data links end at a cluster classified Free,
Reserved or Bad before any Eoc entry was reached. -/
def chainBad (v : VFat) : List Nat → Bool
  | [] => false
  | [c] =>
    match FatEntry.status (v.fatEntry c) with
    | .free | .reserved | .bad => true
    | _ => false
  | c :: c2 :: rest =>
    match FatEntry.status (v.fatEntry c) with
    | .data next => next = c2 && chainBad v (c2 :: rest)
    | _ => false

/-- Concrete device for the chain witnesses: one FAT entry per 4-byte
sector, cluster 2 links to cluster 3, cluster 3 carries an Eoc value. -/
def chainDeviceOK : Device :=
  ⟨fun s o =>
    if s = 2 then (if o = 0 then 3 else 0)
    else if s = 3 then
      (if o = 0 then 0xF8 else if o = 1 then 0xFF
       else if o = 2 then 0xFF else if o = 3 then 0x0F else 0)
    else 0⟩

/-- Concrete device for the bad-chain witness: cluster 2 links to
cluster 3 whose FAT entry is 0, classified Free. -/
def chainDeviceBad : Device :=
  ⟨fun s o => if s = 2 ∧ o = 0 then 3 else 0⟩

/-- Tiny volume: 4-byte sectors, 1 sector per cluster, FAT at sector 0. -/
def vOK : VFat := ⟨chainDeviceOK, 4, 1, 1, 0, 10, 2⟩

/-- Tiny volume over the bad-chain device. -/
def vBad : VFat := ⟨chainDeviceBad, 4, 1, 1, 0, 10, 2⟩

/-! ## Sector cache (cache.rs) -/

/-- struct Partition in cache.rs: physical start sector of the partition
and the size in bytes of one logical sector. -/
structure Partition where
  start : Nat
  sector_size : Nat

/-- The address-translation state of CachedDevice: the physical sector
size reported by the underlying block device, and the partition window.
The cache map itself holds no behavioral content for translation. -/
structure CachedDevice where
  deviceSectorSize : Nat
  partition : Partition

/-- CachedDevice::virtual_to_physical: map a request for logical sector
virt to the first physical sector and the number of physical sectors
needed to serve it. -/
def CachedDevice.virtualToPhysical (c : CachedDevice) (virt : Nat) :
    Nat × Nat :=
  if c.deviceSectorSize = c.partition.sector_size then (virt, 1)
  else if virt < c.partition.start then (virt, 1)
  else
    let factor := c.partition.sector_size / c.deviceSectorSize
    let logical_offset := virt - c.partition.start
    let physical_offset := logical_offset * factor
    let physical_sector := c.partition.start + physical_offset
    (physical_sector, factor)

/-! ## MBR decoder (mbr.rs) -/

/-- struct CHS in mbr.rs. -/
structure CHS where
  head : Nat
  sector_starting_cylinder : Nat
  deriving Repr, DecidableEq, Inhabited

/-- struct PartitionEntry in mbr.rs: one 16-byte partition-table slot. -/
structure PartitionEntry where
  boot_indicator_flag : Nat
  starting_chs : CHS
  partition_type : Nat
  ending_chs : CHS
  relative_sector : Nat
  total_sectors : Nat
  deriving Repr, DecidableEq, Inhabited

/-- struct MasterBootRecord in mbr.rs (bootstrap and disk id bytes kept
as raw byte lists). -/
structure MasterBootRecord where
  mbr_bootstrap : List Nat
  disk_id : List Nat
  partition_table_entries : List PartitionEntry
  bootsector_signature : List Nat

/-- The loop body of MasterBootRecord::get_fat_partition_offset: return
the relative starting sector of the first entry whose type byte is 0x0B
or 0x0C. -/
def findFatPartition : List PartitionEntry → Option Nat
  | [] => none
  | p :: rest =>
    if p.partition_type = 0x0b ∨ p.partition_type = 0x0c then
      some p.relative_sector
    else findFatPartition rest

/-- MasterBootRecord::get_fat_partition_offset. -/
def MasterBootRecord.getFatPartitionOffset (m : MasterBootRecord) :
    Option Nat :=
  findFatPartition m.partition_table_entries

/-- An entry selected by the lookup: partition-type byte 0x0B or 0x0C. -/
def isFatType (p : PartitionEntry) : Prop :=
  p.partition_type = 0x0b ∨ p.partition_type = 0x0c

instance (p : PartitionEntry) : Decidable (isFatType p) := by
  unfold isFatType; infer_instance

/-- A concrete MBR whose second table entry is the first FAT32 one. -/
def witnessMbr : MasterBootRecord :=
  ⟨[], [],
    [⟨0x00, ⟨0, 0⟩, 0x07, ⟨0, 0⟩, 63, 100⟩,
     ⟨0x80, ⟨0, 0⟩, 0x0c, ⟨0, 0⟩, 2048, 1000⟩,
     ⟨0x00, ⟨0, 0⟩, 0x0b, ⟨0, 0⟩, 4096, 5⟩,
     ⟨0x00, ⟨0, 0⟩, 0x00, ⟨0, 0⟩, 0, 0⟩],
    [0x55, 0xAA]⟩

/-! ## Metadata (metadata.rs) -/

/-- struct Timestamp: a packed FAT time and date pair, kept as the raw
little-endian u16 values. -/
structure Timestamp where
  time : Nat
  date : Nat
  deriving Repr, DecidableEq, Inhabited

/-- struct Metadata: name, size, attribute byte and raw timestamps of a
directory entry. -/
structure Metadata where
  name : String
  size : Nat
  attributes : Nat
  created : Timestamp
  accessed : Nat
  last_modified : Timestamp
  deriving Repr, DecidableEq, Inhabited

/-! ## Directory decoder (dir.rs) -/

/-- One raw 32-byte directory record. -/
abbrev DirRec := List Nat

/-- Byte i of a record, reduced to the u8 range (reads past the end of a
short record give 0; every record handled by the claims has 32 bytes). -/
def recByte (r : DirRec) (i : Nat) : Nat := r.getD i 0 % 256

/-- Little-endian u16 field of a record at byte offset off. -/
def recU16 (r : DirRec) (off : Nat) : Nat :=
  recByte r off + 256 * recByte r (off + 1)

/-- Little-endian u32 field of a record at byte offset off. -/
def recU32 (r : DirRec) (off : Nat) : Nat :=
  recByte r off + 256 * recByte r (off + 1) +
    65536 * recByte r (off + 2) + 16777216 * recByte r (off + 3)

/-- Vec::pop: remove and return the last element of the vector. -/
def vecPop {α : Type} (l : List α) : Option (α × List α) :=
  match l.getLast? with
  | none => none
  | some x => some (x, l.dropLast)

/-- The 26 name bytes of an LFN record in record order: chars1 is bytes
1-10, chars2 is bytes 14-25 and chars3 is bytes 28-31 of the packed
VFatLfnDirEntry layout. -/
def lfnChars (r : DirRec) : List Nat :=
  ((List.range 10).map (fun i => recByte r (1 + i))) ++
    ((List.range 12).map (fun i => recByte r (14 + i))) ++
    ((List.range 4).map (fun i => recByte r (28 + i)))

/-- The first while loop of DirIter::next (skipping 0xE5 records and
stopping at byte-0 zero): returns none when iteration ends, otherwise
the first surviving record and the remaining stack. -/
def skipDeleted (next : DirRec) (entries : List DirRec) :
    Option (DirRec × List DirRec) :=
  if recByte next 0 = 0 then none
  else if recByte next 0 = 0xE5 then
    match h : vecPop entries with
    | none => none
    | some (v, rest) => skipDeleted v rest
  else some (next, entries)
termination_by entries.length
decreasing_by
  simp only [vecPop] at h
  cases hl : entries.getLast? with
  | none => rw [hl] at h; exact absurd h (by simp)
  | some x2 =>
    rw [hl] at h
    have hr : entries.dropLast = rest := by
      injection h with h1
      exact congrArg Prod.snd h1
    have hne : entries ≠ [] := by
      intro he
      subst he
      simp at hl
    rw [← hr, List.length_dropLast]
    have hpos : 0 < entries.length := List.length_pos.mpr hne
    omega

/-- Result of the LFN-accumulation loop of DirIter::next: either the
pop().unwrap() panicked on an exhausted stack, or the loop stopped at a
regular record with the accumulated name bytes and the is_lfn flag. -/
inductive LfnScan where
  | panicked
  | done (reg : DirRec) (entries : List DirRec) (nameBytes : List Nat)
      (isLfn : Bool)
  deriving Repr, DecidableEq

/-- The second while loop of DirIter::next: while the attribute byte at
offset 11 is 0x0F, append the reversed 26 name bytes of the record to
the accumulator (unless its sequence byte is 0xE5) and pop the next
record, panicking when none remains. -/
def lfnLoop (next : DirRec) (entries : List DirRec) (nameBytes : List Nat)
    (isLfn : Bool) : LfnScan :=
  if recByte next 11 = 0xF then
    let nameBytes2 :=
      if recByte next 0 ≠ 0xE5 then nameBytes ++ (lfnChars next).reverse
      else nameBytes
    let isLfn2 := if recByte next 0 ≠ 0xE5 then true else isLfn
    match h : vecPop entries with
    | none => .panicked
    | some (v, rest) => lfnLoop v rest nameBytes2 isLfn2
  else .done next entries nameBytes isLfn
termination_by entries.length
decreasing_by
  simp only [vecPop] at h
  cases hl : entries.getLast? with
  | none => rw [hl] at h; exact absurd h (by simp)
  | some x2 =>
    rw [hl] at h
    have hr : entries.dropLast = rest := by
      injection h with h1
      exact congrArg Prod.snd h1
    have hne : entries ≠ [] := by
      intro he
      subst he
      simp at hl
    rw [← hr, List.length_dropLast]
    have hpos : 0 < entries.length := List.length_pos.mpr hne
    omega

/-- The iterator-pair step of DirIter::next that combines the name bytes
into u16 code units: unit i is byte 2i+1 shifted left by 8 ored with
byte 2i; a trailing unpaired byte is dropped by zip. -/
def toU16Pairs : List Nat → List Nat
  | b0 :: b1 :: rest => (b1 * 256 + b0) :: toU16Pairs rest
  | _ => []

/-- The truncation index DirIter::next computes on the code units: the
position of the first unit equal to 0 or to 0xFF, or the full length
when no such unit occurs. -/
def lfnTruncIdx (chars : List Nat) : Nat :=
  match chars.findIdx? (fun c => c == 0 || c == 0xFF) with
  | some n => n
  | none => chars.length

/-- The truncation rule as the specification words it, for comparison
with the code: truncate at the first code unit equal to 0x0000 or to
0xFFFF, whichever comes first. -/
def specLfnTruncIdx (chars : List Nat) : Nat :=
  match chars.findIdx? (fun c => c == 0 || c == 0xFFFF) with
  | some n => n
  | none => chars.length

/-- char::decode_utf16 with every error replaced by an underscore, as
DirIter::next maps the decode results.  A lone or unpaired surrogate
yields one replacement and decoding continues at the following unit. -/
def decodeUtf16Lossy : List Nat → List Char
  | [] => []
  | [u] => if u < 0xD800 ∨ 0xE000 ≤ u then [Char.ofNat u] else ['_']
  | u :: v :: rest =>
    if u < 0xD800 ∨ 0xE000 ≤ u then Char.ofNat u :: decodeUtf16Lossy (v :: rest)
    else if u < 0xDC00 then
      if 0xDC00 ≤ v ∧ v < 0xE000 then
        Char.ofNat (0x10000 + (u - 0xD800) * 0x400 + (v - 0xDC00)) ::
          decodeUtf16Lossy rest
      else '_' :: decodeUtf16Lossy (v :: rest)
    else '_' :: decodeUtf16Lossy (v :: rest)

/-- String::from_utf8_lossy on a byte list: standard UTF-8 decoding with
an U+FFFD replacement where a well-formed sequence does not start.  The
8.3 name bytes the claims exercise are plain ASCII. -/
def utf8Lossy : List Nat → List Char
  | [] => []
  | b :: rest =>
    if b < 0x80 then Char.ofNat b :: utf8Lossy rest
    else if 0xC2 ≤ b ∧ b ≤ 0xDF then
      match rest with
      | b2 :: r2 =>
        if 0x80 ≤ b2 ∧ b2 < 0xC0 then
          Char.ofNat ((b - 0xC0) * 64 + (b2 - 0x80)) :: utf8Lossy r2
        else Char.ofNat 0xFFFD :: utf8Lossy (b2 :: r2)
      | [] => [Char.ofNat 0xFFFD]
    else if 0xE0 ≤ b ∧ b ≤ 0xEF then
      match rest with
      | b2 :: b3 :: r3 =>
        if (0x80 ≤ b2 ∧ b2 < 0xC0) ∧ (0x80 ≤ b3 ∧ b3 < 0xC0) ∧
            (b = 0xE0 → 0xA0 ≤ b2) ∧ (b = 0xED → b2 < 0xA0) then
          Char.ofNat ((b - 0xE0) * 4096 + (b2 - 0x80) * 64 + (b3 - 0x80)) ::
            utf8Lossy r3
        else Char.ofNat 0xFFFD :: utf8Lossy (b2 :: b3 :: r3)
      | [b2] => [Char.ofNat 0xFFFD]
      | [] => [Char.ofNat 0xFFFD]
    else if 0xF0 ≤ b ∧ b ≤ 0xF4 then
      match rest with
      | b2 :: b3 :: b4 :: r4 =>
        if (0x80 ≤ b2 ∧ b2 < 0xC0) ∧ (0x80 ≤ b3 ∧ b3 < 0xC0) ∧
            (0x80 ≤ b4 ∧ b4 < 0xC0) ∧ (b = 0xF0 → 0x90 ≤ b2) ∧
            (b = 0xF4 → b2 < 0x90) then
          Char.ofNat ((b - 0xF0) * 262144 + (b2 - 0x80) * 4096 +
              (b3 - 0x80) * 64 + (b4 - 0x80)) :: utf8Lossy r4
        else Char.ofNat 0xFFFD :: utf8Lossy (b2 :: b3 :: b4 :: r4)
      | [b2, b3] => [Char.ofNat 0xFFFD]
      | [b2] => [Char.ofNat 0xFFFD]
      | [] => [Char.ofNat 0xFFFD]
    else Char.ofNat 0xFFFD :: utf8Lossy rest

/-- The 8.3 branch of DirIter::next: the 8-byte name field truncated at
the first 0x00 or 0x20 byte, then a dot and the likewise-truncated
3-byte extension unless the extension starts empty. -/
def name83 (r : DirRec) : List Char :=
  let fn := (List.range 8).map (fun i => recByte r i)
  let fnEnd :=
    match fn.findIdx? (fun b => b == 0 || b == 0x20) with
    | some n => n
    | none => fn.length
  let base := utf8Lossy (fn.take fnEnd)
  let ext := (List.range 3).map (fun i => recByte r (8 + i))
  match ext.findIdx? (fun b => b == 0 || b == 0x20) with
  | some pos =>
    if 0 < pos then base ++ ('.' :: utf8Lossy (ext.take pos)) else base
  | none => base ++ ('.' :: utf8Lossy ext)

/-- The LFN branch of DirIter::next applied to the reversed accumulator:
pair the bytes into code units, truncate and decode. -/
def decodeLfnName (nameBytes : List Nat) : List Char :=
  let chars := toU16Pairs nameBytes
  decodeUtf16Lossy (chars.take (lfnTruncIdx chars))

/-- The same decode with the truncation index the spec words demand. -/
def specDecodeLfnName (nameBytes : List Nat) : List Char :=
  let chars := toU16Pairs nameBytes
  decodeUtf16Lossy (chars.take (specLfnTruncIdx chars))

/-- enum Entry: a decoded directory entry.  The shared VFat handle the
source stores in Dir and File carries no decoding behavior and is
dropped here. -/
inductive Entry where
  | file (metadata : Metadata) (start_cluster : Nat)
  | dir (metadata : Metadata) (start_cluster : Nat)
  deriving Repr, DecidableEq

/-- traits::Entry::name. -/
def Entry.name : Entry → String
  | .file m _ => m.name
  | .dir m _ => m.name

/-- The tail of DirIter::next: build Metadata from the regular record,
combine the cluster halves, and select Dir when attribute bit 0x10 is
set, File otherwise. -/
def mkEntry (reg : DirRec) (name : String) : Entry :=
  let start_cluster := recU16 reg 20 * 65536 + recU16 reg 26
  let metadata : Metadata :=
    ⟨name, recU32 reg 28, recByte reg 11,
      ⟨recU16 reg 14, recU16 reg 16⟩, recU16 reg 18,
      ⟨recU16 reg 22, recU16 reg 24⟩⟩
  if recByte reg 11 &&& 0x10 ≠ 0 then .dir metadata start_cluster
  else .file metadata start_cluster

/-- Result of one DirIter::next call: iteration over, a panic, or an
entry together with the remaining record stack. -/
inductive NextResult where
  | none
  | panic
  | entry (e : Entry) (rest : List DirRec)
  deriving Repr, DecidableEq

/-- DirIter::next on the dir_entries stack.  The re-checks of byte 0
after the first while loop (source lines 136-140) are omitted: that loop
only exits on a record whose byte 0 is neither 0x00 nor 0xE5, so both
re-check branches are unreachable. -/
def dirIterNext (entries : List DirRec) : NextResult :=
  if entries.isEmpty then .none
  else
    match vecPop entries with
    | Option.none => .panic
    | some (next, entries1) =>
      match skipDeleted next entries1 with
      | Option.none => .none
      | some (next2, entries2) =>
        match lfnLoop next2 entries2 [] false with
        | .panicked => .panic
        | .done reg entries3 nameBytes isLfn =>
          let name :=
            if isLfn then (decodeLfnName nameBytes.reverse).asString
            else (name83 reg).asString
          .entry (mkEntry reg name) entries3

/-- The dir_entries stack DirIter::new builds from the directory's
records in on-disk order: the reversed record list, so that Vec::pop
yields records front to back. -/
def dirIterState (records : List DirRec) : List DirRec := records.reverse

/-- The name of the entry a DirIter::next call produced, when any. -/
def nextEntryName : NextResult → Option String
  | .entry e _ => some e.name
  | _ => Option.none

/-! ## File facade (file.rs) and write stubs (vfat.rs) -/

/-- struct File in file.rs: metadata, start cluster, the owning volume,
the current offset and the lazily materialized chain bytes. -/
structure File where
  metadata : Metadata
  start_cluster : Nat
  vfat : VFat
  offset : Nat
  data : Option (List Nat)

/-- struct Dir in dir.rs (the decoding-relevant fields). -/
structure Dir where
  metadata : Metadata
  start_cluster : Nat

/-- io::SeekFrom: endRel embeds SeekFrom::End and current embeds
SeekFrom::Current, both carrying an i64. -/
inductive SeekFrom where
  | start (offset : Nat)
  | endRel (offset : Int)
  | current (offset : Int)

/-- The u64-to-i64 cast (offset as i64) in File::seek. -/
def i64OfU64 (n : Nat) : Int :=
  if n % 2 ^ 64 < 2 ^ 63 then ((n % 2 ^ 64 : Nat) : Int)
  else ((n % 2 ^ 64 : Nat) : Int) - 2 ^ 64

/-- The candidate offset File::seek computes before validation:
Start(o) gives o, End(o) gives size - o, Current(o) gives offset + o. -/
def File.seekTarget (f : File) (pos : SeekFrom) : Int :=
  match pos with
  | .start o => i64OfU64 o
  | .endRel o => (f.metadata.size : Int) - o
  | .current o => (f.offset : Int) + o

/-- io::Seek::seek for File: reject a candidate below 0 or above the
metadata size with InvalidInput leaving the offset unchanged, else store
the candidate (as u32) and return it.  The pair carries the Ok value or
error together with the file state after the call. -/
def File.seek (f : File) (pos : SeekFrom) : Outcome Nat × File :=
  let newOffset := f.seekTarget pos
  if newOffset < 0 ∨ newOffset > (f.metadata.size : Int) then
    (.error .invalidInput, f)
  else
    let f2 := { f with offset := newOffset.toNat % 2 ^ 32 }
    (.ok f2.offset, f2)

/-- File::initialize (the source name collides with a reserved word
here): on first use pull the whole cluster chain into the data field. -/
def File.materialize (f : File) (fuel : Nat) : Outcome File :=
  match f.data with
  | some _ => .ok f
  | none =>
    match f.vfat.readChain fuel f.start_cluster [] with
    | .ok (buf, _) => .ok { f with data := some buf }
    | .error e => .error e
    | .panic => .panic
    | .nofuel => .nofuel

/-- Wrapping u32 subtraction, the size - offset computation in read. -/
def sub32 (a b : Nat) : Nat := (a % 2 ^ 32 + 2 ^ 32 - b % 2 ^ 32) % 2 ^ 32

/-- io::Read::read for File into a destination of length buflen:
materialize the data if absent, copy min(buflen, size - offset) bytes
from the current offset (a slice past the data length is a panic), and
advance the offset through seek(Current(n)).  Returns the copied bytes
and the file state after the call. -/
def File.read (f : File) (buflen fuel : Nat) : Outcome (List Nat × File) :=
  match (if f.data.isNone then f.materialize fuel else .ok f) with
  | .error e => .error e
  | .panic => .panic
  | .nofuel => .nofuel
  | .ok f1 =>
    let n := min buflen (sub32 f1.metadata.size f1.offset)
    match f1.data with
    | none => .panic
    | some d =>
      if f1.offset + n ≤ d.length then
        let copied := (d.drop f1.offset).take n
        match f1.seek (.current (n : Int)) with
        | (.ok _, f2) => .ok (copied, f2)
        | (.error e, _) => .error e
        | (.panic, _) => .panic
        | (.nofuel, _) => .nofuel
      else .panic

/-- io::Write::write for File: unimplemented in the source, a panic. -/
def File.write (f : File) (buf : List Nat) : Outcome Nat := .panic

/-- io::Write::flush for File: unimplemented in the source, a panic. -/
def File.flush (f : File) : Outcome Unit := .panic

/-- traits::File::sync: unimplemented in the source, a panic. -/
def File.sync (f : File) : Outcome Unit := .panic

/-- FileSystem::create_file on the Shared VFat facade: the source body
is unimplemented("read only file system"), a panic. -/
def VFat.createFile (v : VFat) (path : String) : Outcome File := .panic

/-- FileSystem::create_dir: unimplemented("read only file system"). -/
def VFat.createDir (v : VFat) (path : String) (parents : Bool) :
    Outcome Dir := .panic

/-- FileSystem::rename: unimplemented("read only file system"). -/
def VFat.rename (v : VFat) (fromPath toPath : String) : Outcome Unit :=
  .panic

/-- FileSystem::remove: unimplemented("read only file system"). -/
def VFat.remove (v : VFat) (path : String) (children : Bool) :
    Outcome Unit := .panic

/-! ## Concrete directory records for the decoder claims -/

/-- Regular 8.3 record for the LONGFILENAME.TXT entry: short name
LONGFI~1.TXT, archive attribute, zero cluster and size. -/
def regLongName : DirRec :=
  [0x4C, 0x4F, 0x4E, 0x47, 0x46, 0x49, 0x7E, 0x31,
   0x54, 0x58, 0x54, 0x20, 0, 0, 0, 0,
   0, 0, 0, 0, 0, 0, 0, 0, 0, 0, 0, 0, 0, 0, 0, 0]

/-- LFN record with sequence number 1 carrying the thirteen UTF-16LE
units of LONGFILENAME. (with the trailing dot). -/
def lfnSeq1 : DirRec :=
  [0x01,
   0x4C, 0x00, 0x4F, 0x00, 0x4E, 0x00, 0x47, 0x00, 0x46, 0x00,
   0x0F, 0x00, 0x00,
   0x49, 0x00, 0x4C, 0x00, 0x45, 0x00, 0x4E, 0x00, 0x41, 0x00, 0x4D, 0x00,
   0x00, 0x00,
   0x45, 0x00, 0x2E, 0x00]

/-- Terminal LFN record (sequence 2 with the last-entry bit) carrying
TXT, the 0x0000 terminator and 0xFFFF padding. -/
def lfnSeq2 : DirRec :=
  [0x42,
   0x54, 0x00, 0x58, 0x00, 0x54, 0x00, 0x00, 0x00, 0xFF, 0xFF,
   0x0F, 0x00, 0x00,
   0xFF, 0xFF, 0xFF, 0xFF, 0xFF, 0xFF, 0xFF, 0xFF, 0xFF, 0xFF, 0xFF, 0xFF,
   0x00, 0x00,
   0xFF, 0xFF, 0xFF, 0xFF]

/-- LFN record whose code units are A, 0xFFFF, B, 0x0000 then padding:
the unit 0xFFFF precedes the first 0x0000. -/
def lfnFFFF : DirRec :=
  [0x41,
   0x41, 0x00, 0xFF, 0xFF, 0x42, 0x00, 0x00, 0x00, 0xFF, 0xFF,
   0x0F, 0x00, 0x00,
   0xFF, 0xFF, 0xFF, 0xFF, 0xFF, 0xFF, 0xFF, 0xFF, 0xFF, 0xFF, 0xFF, 0xFF,
   0x00, 0x00,
   0xFF, 0xFF, 0xFF, 0xFF]

/-- Concrete file for the seek/read witnesses: size 3, materialized
data of three bytes, offset 0. -/
def wFile : File :=
  ⟨⟨"x", 3, 0x20, ⟨0, 0⟩, 0, ⟨0, 0⟩⟩, 2, vOK, 0, some [7, 7, 7]⟩

/-! ## Theorems -/

lemma sectorBytes_length (v : VFat) (s : Nat) :
    (v.sectorBytes s).length = v.bytes_per_sector := by
  simp [VFat.sectorBytes]

lemma readCluster_length (v : VFat) (c : Nat) :
    (v.readCluster c).length = v.sectors_per_cluster * v.bytes_per_sector := by
  simp [VFat.readCluster, List.length_flatten, List.map_map,
    Function.comp_def, sectorBytes_length, List.map_const']

lemma listWrite_append (buf pad d : List Nat) (h : d.length = pad.length) :
    listWrite (buf ++ pad) buf.length d = buf ++ d := by
  unfold listWrite
  simp [List.take_left, List.drop_append, h]

lemma flatten_map_readCluster_length (v : VFat) (cs : List Nat) :
    ((cs.map v.readCluster).flatten).length =
      cs.length * (v.sectors_per_cluster * v.bytes_per_sector) := by
  simp [List.length_flatten, List.map_map, Function.comp_def,
    readCluster_length, List.map_const']

lemma readChainLoop_succ (v : VFat) (fuel cursor : Nat) (buf : List Nat)
    (br : Nat) :
    v.readChainLoop (fuel + 1) cursor buf br =
      match FatEntry.status (v.fatEntry cursor) with
      | .data next =>
        let resized := buf ++
          List.replicate (v.bytes_per_sector * v.sectors_per_cluster) 0
        let cbytes := v.readCluster cursor
        v.readChainLoop fuel next (listWrite resized br cbytes)
          (br + cbytes.length)
      | .eoc _ =>
        let resized := buf ++
          List.replicate (v.bytes_per_sector * v.sectors_per_cluster) 0
        let cbytes := v.readCluster cursor
        .ok (listWrite resized br cbytes, br + cbytes.length)
      | _ => .error .invalidData := rfl

lemma readChainLoop_step_data (v : VFat) (fuel cursor : Nat) (buf : List Nat)
    (br next : Nat) (hs : FatEntry.status (v.fatEntry cursor) = .data next) :
    v.readChainLoop (fuel + 1) cursor buf br =
      v.readChainLoop fuel next
        (listWrite
          (buf ++ List.replicate (v.bytes_per_sector * v.sectors_per_cluster) 0)
          br (v.readCluster cursor))
        (br + (v.readCluster cursor).length) := by
  rw [readChainLoop_succ, hs]

lemma readChainLoop_step_eoc (v : VFat) (fuel cursor : Nat) (buf : List Nat)
    (br m : Nat) (hs : FatEntry.status (v.fatEntry cursor) = .eoc m) :
    v.readChainLoop (fuel + 1) cursor buf br =
      .ok (listWrite
          (buf ++ List.replicate (v.bytes_per_sector * v.sectors_per_cluster) 0)
          br (v.readCluster cursor),
        br + (v.readCluster cursor).length) := by
  rw [readChainLoop_succ, hs]

lemma readChainLoop_chainOK (v : VFat) (cs : List Nat) :
    ∀ (c : Nat) (buf : List Nat), chainOK v (c :: cs) = true →
      v.readChainLoop (cs.length + 1) c buf buf.length =
        .ok (buf ++ ((c :: cs).map v.readCluster).flatten,
          buf.length +
            (cs.length + 1) * (v.sectors_per_cluster * v.bytes_per_sector)) := by
  induction cs with
  | nil =>
    intro c buf h
    rcases hs : FatEntry.status (v.fatEntry c) with _ | _ | next | _ | m <;>
      simp [chainOK, hs] at h
    simp only [List.length_nil]
    rw [readChainLoop_step_eoc v 0 c buf buf.length m hs]
    rw [listWrite_append buf _ _ (by simp [readCluster_length, Nat.mul_comm])]
    simp [readCluster_length]
  | cons c2 rest ih =>
    intro c buf h
    rcases hs : FatEntry.status (v.fatEntry c) with _ | _ | next | _ | m <;>
      simp [chainOK, hs] at h
    obtain ⟨hnext, hrest⟩ := h
    subst hnext
    simp only [List.length_cons]
    rw [readChainLoop_step_data v (rest.length + 1) c buf buf.length _ hs]
    rw [listWrite_append buf _ _ (by simp [readCluster_length, Nat.mul_comm])]
    have hlen : buf.length + (v.readCluster c).length =
        (buf ++ v.readCluster c).length := by simp
    rw [hlen, ih _ (buf ++ v.readCluster c) hrest]
    simp [readCluster_length, List.append_assoc]
    ring

lemma readChainLoop_chainBad (v : VFat) (cs : List Nat) :
    ∀ (c : Nat) (buf : List Nat) (br : Nat), chainBad v (c :: cs) = true →
      v.readChainLoop (cs.length + 1) c buf br = .error .invalidData := by
  induction cs with
  | nil =>
    intro c buf br h
    rcases hs : FatEntry.status (v.fatEntry c) with _ | _ | next | _ | m <;>
      simp [chainBad, hs] at h <;> rw [readChainLoop_succ, hs]
  | cons c2 rest ih =>
    intro c buf br h
    rcases hs : FatEntry.status (v.fatEntry c) with _ | _ | next | _ | m <;>
      simp [chainBad, hs] at h
    obtain ⟨hnext, hrest⟩ := h
    subst hnext
    simp only [List.length_cons]
    rw [readChainLoop_step_data v (rest.length + 1) c buf br _ hs]
    exact ih _ _ _ hrest

/-- Claim C1: for a cluster chain of Data entries terminated by an Eoc
entry, read_chain on an empty output buffer returns the concatenation of
the visited clusters' bytes in FAT-linked order, of length exactly
(clusters visited) * sectors_per_cluster * bytes_per_sector, with no
truncation to any declared file size. -/
theorem readChain_dataChain_exact_c1 (v : VFat) (c : Nat) (cs : List Nat)
    (h : chainOK v (c :: cs) = true) :
    v.readChain (c :: cs).length c [] =
      .ok (((c :: cs).map v.readCluster).flatten,
        (c :: cs).length * v.sectors_per_cluster * v.bytes_per_sector) ∧
    (((c :: cs).map v.readCluster).flatten).length =
      (c :: cs).length * v.sectors_per_cluster * v.bytes_per_sector := by
  constructor
  · have h1 := readChainLoop_chainOK v cs c [] h
    unfold VFat.readChain
    simpa [Nat.mul_assoc] using h1
  · simpa [Nat.mul_assoc] using flatten_map_readCluster_length v (c :: cs)

/-- Claim C2: a chain whose FAT-linked sequence reaches a Free, Reserved
or Bad entry before any Eoc fails with InvalidData and returns no
successful partial result. -/
theorem readChain_badChain_invalidData_c2 (v : VFat) (c : Nat)
    (cs : List Nat) (buf : List Nat) (h : chainBad v (c :: cs) = true) :
    v.readChain (c :: cs).length c buf = .error .invalidData := by
  have h1 := readChainLoop_chainBad v cs c buf 0 h
  unfold VFat.readChain
  simpa using h1

/-- Witness for claim C1 on the concrete chain 2 -> 3 -> Eoc. -/
theorem readChain_dataChain_exact_c1_witness :
    chainOK vOK [2, 3] = true ∧
    (vOK.readChain [2, 3].length 2 [] =
      .ok (([2, 3].map vOK.readCluster).flatten,
        [2, 3].length * vOK.sectors_per_cluster * vOK.bytes_per_sector) ∧
    (([2, 3].map vOK.readCluster).flatten).length =
      [2, 3].length * vOK.sectors_per_cluster * vOK.bytes_per_sector) :=
  ⟨by decide, readChain_dataChain_exact_c1 vOK 2 [3] (by decide)⟩

/-- Witness for claim C2 on the concrete chain 2 -> 3 with 3 Free. -/
theorem readChain_badChain_invalidData_c2_witness :
    chainBad vBad [2, 3] = true ∧
    vBad.readChain [2, 3].length 2 [] = .error .invalidData :=
  ⟨by decide, readChain_badChain_invalidData_c2 vBad 2 [3] [] (by decide)⟩

/-- Claim C6: under the construction-time contract (the logical sector
size is a positive multiple of the physical one), a request for logical
sector n below partition.start maps to physical sector n spanning one
physical sector, and a request at or above partition.start maps to the
physical range starting at partition.start + (n - partition.start) *
factor spanning factor sectors, factor being logical size / physical
size. -/
theorem virtualToPhysical_translation_c6 (c : CachedDevice) (n : Nat)
    (hpos : 0 < c.deviceSectorSize)
    (hdvd : c.deviceSectorSize ∣ c.partition.sector_size) :
    (n < c.partition.start → c.virtualToPhysical n = (n, 1)) ∧
    (c.partition.start ≤ n →
      c.virtualToPhysical n =
        (c.partition.start + (n - c.partition.start) *
          (c.partition.sector_size / c.deviceSectorSize),
         c.partition.sector_size / c.deviceSectorSize)) := by
  constructor
  · intro hlt
    unfold CachedDevice.virtualToPhysical
    by_cases heq : c.deviceSectorSize = c.partition.sector_size <;>
      simp [heq, hlt]
  · intro hge
    unfold CachedDevice.virtualToPhysical
    by_cases heq : c.deviceSectorSize = c.partition.sector_size
    · have hfac : c.partition.sector_size / c.partition.sector_size = 1 :=
        Nat.div_self (heq ▸ hpos)
      simp [heq, hfac, Nat.mul_one]
      omega
    · have hlt : ¬ n < c.partition.start := by omega
      simp [heq, hlt]

/-- Witness for claim C6 at a concrete cache: physical sectors of 512
bytes, logical sectors of 1024 bytes, partition starting at sector 100. -/
theorem virtualToPhysical_translation_c6_witness :
    (0 < (⟨512, 100, 1024⟩ : CachedDevice).deviceSectorSize ∧
      (⟨512, 100, 1024⟩ : CachedDevice).deviceSectorSize ∣
        (⟨512, 100, 1024⟩ : CachedDevice).partition.sector_size) ∧
    ((99 < (100 : Nat) →
      (⟨512, 100, 1024⟩ : CachedDevice).virtualToPhysical 99 = (99, 1)) ∧
     ((100 : Nat) ≤ 99 →
      (⟨512, 100, 1024⟩ : CachedDevice).virtualToPhysical 99 =
        (100 + (99 - 100) * (1024 / 512), 1024 / 512))) :=
  ⟨⟨by decide, by decide⟩,
    virtualToPhysical_translation_c6 ⟨512, 100, 1024⟩ 99 (by decide) (by decide)⟩

lemma findFatPartition_cons_pos (p : PartitionEntry)
    (rest : List PartitionEntry) (hp : isFatType p) :
    findFatPartition (p :: rest) = some p.relative_sector := by
  unfold findFatPartition
  exact if_pos hp

lemma findFatPartition_cons_neg (p : PartitionEntry)
    (rest : List PartitionEntry) (hp : ¬ isFatType p) :
    findFatPartition (p :: rest) = findFatPartition rest := by
  conv_lhs => simp only [findFatPartition]
  exact if_neg hp

lemma findFatPartition_characterization (l : List PartitionEntry) :
    (∀ off, findFatPartition l = some off ↔
      ∃ i, i < l.length ∧ isFatType (l.getD i default) ∧
        off = (l.getD i default).relative_sector ∧
        ∀ j, j < i → ¬ isFatType (l.getD j default)) ∧
    (findFatPartition l = none ↔ ∀ p ∈ l, ¬ isFatType p) := by
  induction l with
  | nil =>
    constructor
    · intro off
      simp [findFatPartition]
    · simp [findFatPartition]
  | cons p rest ih =>
    by_cases hp : isFatType p
    · rw [findFatPartition_cons_pos p rest hp]
      constructor
      · intro off
        constructor
        · intro h
          refine ⟨0, by simp, by simpa using hp, ?_, by omega⟩
          simpa using (Option.some.inj h).symm
        · rintro ⟨i, hi, hfat, hoff, hfirst⟩
          have hi0 : i = 0 := by
            by_contra hne
            exact hfirst 0 (by omega) (by simpa using hp)
          subst hi0
          simp only [List.getD_cons_zero] at hoff
          exact congrArg some hoff.symm
      · constructor
        · intro h
          exact absurd h (by simp)
        · intro h
          exact absurd hp (h p (by simp))
    · have hstep : findFatPartition (p :: rest) = findFatPartition rest :=
        findFatPartition_cons_neg p rest hp
      constructor
      · intro off
        rw [hstep, (ih.1 off)]
        constructor
        · rintro ⟨i, hi, hfat, hoff, hfirst⟩
          refine ⟨i + 1, by simpa using hi, by simpa using hfat,
            by simpa using hoff, ?_⟩
          intro j hj
          match j with
          | 0 => simpa using hp
          | j + 1 => simpa using hfirst j (by omega)
        · rintro ⟨i, hi, hfat, hoff, hfirst⟩
          match i with
          | 0 => exact absurd (by simpa using hfat) hp
          | i + 1 =>
            refine ⟨i, by simpa using hi, by simpa using hfat,
              by simpa using hoff, ?_⟩
            intro j hj
            simpa using hfirst (j + 1) (by omega)
      · rw [hstep, ih.2]
        constructor
        · intro h
          intro q hq
          rcases List.mem_cons.mp hq with rfl | hq2
          · exact hp
          · exact h q hq2
        · intro h q hq
          exact h q (List.mem_cons_of_mem _ hq)

/-- Claim C7: for a decoded MBR holding the four-entry partition table,
the FAT32-partition lookup returns the relative starting sector of the
first entry whose partition-type byte is 0x0B or 0x0C, and returns none
when no entry has such a type. -/
theorem getFatPartitionOffset_first_c7 (m : MasterBootRecord)
    (hlen : m.partition_table_entries.length = 4) :
    (∀ off, m.getFatPartitionOffset = some off ↔
      ∃ i, i < 4 ∧ isFatType (m.partition_table_entries.getD i default) ∧
        off = (m.partition_table_entries.getD i default).relative_sector ∧
        ∀ j, j < i →
          ¬ isFatType (m.partition_table_entries.getD j default)) ∧
    (m.getFatPartitionOffset = none ↔
      ∀ p ∈ m.partition_table_entries, ¬ isFatType p) := by
  have h := findFatPartition_characterization m.partition_table_entries
  unfold MasterBootRecord.getFatPartitionOffset
  rw [hlen] at h
  exact h

/-- Witness for claim C7: a table whose second entry is the first with a
FAT32 type byte. -/
theorem getFatPartitionOffset_first_c7_witness :
    (witnessMbr.partition_table_entries.length = 4) ∧
    ((∀ off, witnessMbr.getFatPartitionOffset = some off ↔
      ∃ i, i < 4 ∧ isFatType (witnessMbr.partition_table_entries.getD i default) ∧
        off = (witnessMbr.partition_table_entries.getD i default).relative_sector ∧
        ∀ j, j < i →
          ¬ isFatType (witnessMbr.partition_table_entries.getD j default)) ∧
    (witnessMbr.getFatPartitionOffset = none ↔
      ∀ p ∈ witnessMbr.partition_table_entries, ¬ isFatType p)) :=
  ⟨by decide, getFatPartitionOffset_first_c7 witnessMbr (by decide)⟩

/-! ### Directory decoder lemmas -/

lemma vecPop_nil {α : Type} : vecPop ([] : List α) = none := rfl

lemma vecPop_concat {α : Type} (xs : List α) (x : α) :
    vecPop (xs ++ [x]) = some (x, xs) := by
  simp [vecPop, List.getLast?_concat, List.dropLast_concat]

lemma vecPop_reverse_cons {α : Type} (x : α) (xs : List α) :
    vecPop ((x :: xs).reverse) = some (x, xs.reverse) := by
  simp [List.reverse_cons, vecPop_concat]

lemma skipDeleted_pass (next : DirRec) (entries : List DirRec)
    (h0 : recByte next 0 ≠ 0) (hE5 : recByte next 0 ≠ 0xE5) :
    skipDeleted next entries = some (next, entries) := by
  rw [skipDeleted.eq_def]
  simp [h0, hE5]

lemma lfnLoop_stop (next : DirRec) (entries : List DirRec) (nb : List Nat)
    (il : Bool) (h11 : recByte next 11 ≠ 0xF) :
    lfnLoop next entries nb il = .done next entries nb il := by
  rw [lfnLoop.eq_def]
  simp [h11]

lemma lfnLoop_step (next : DirRec) (entries : List DirRec) (nb : List Nat)
    (il : Bool) (h11 : recByte next 11 = 0xF) (hE5 : recByte next 0 ≠ 0xE5)
    (v : DirRec) (rest : List DirRec)
    (hpop : vecPop entries = some (v, rest)) :
    lfnLoop next entries nb il =
      lfnLoop v rest (nb ++ (lfnChars next).reverse) true := by
  rw [lfnLoop.eq_def]
  simp [h11, hE5]
  split
  · rename_i heq
    rw [hpop] at heq
    exact Option.noConfusion heq
  · rename_i v2 rest2 heq
    rw [hpop] at heq
    injection heq with h1
    injection h1 with hv hr
    subst hv
    subst hr
    rfl

lemma lfnLoop_panics (next : DirRec) (entries : List DirRec) (nb : List Nat)
    (il : Bool) (h11 : recByte next 11 = 0xF)
    (hpop : vecPop entries = none) :
    lfnLoop next entries nb il = .panicked := by
  rw [lfnLoop.eq_def]
  simp [h11]
  split
  · rfl
  · rename_i v2 rest2 heq
    rw [hpop] at heq
    exact Option.noConfusion heq

lemma lfnLoop_run (lfns : List DirRec) :
    ∀ (cur reg : DirRec) (rest : List DirRec) (nb : List Nat) (il : Bool),
      recByte cur 11 = 0xF → recByte cur 0 ≠ 0xE5 →
      (∀ r ∈ lfns, recByte r 11 = 0xF ∧ recByte r 0 ≠ 0xE5) →
      recByte reg 11 ≠ 0xF →
      lfnLoop cur ((lfns ++ reg :: rest).reverse) nb il =
        .done reg rest.reverse
          (nb ++ ((cur :: lfns).map (fun r => (lfnChars r).reverse)).flatten)
          true := by
  induction lfns with
  | nil =>
    intro cur reg rest nb il h11 h0 hall hreg
    rw [lfnLoop_step cur _ nb il h11 h0 reg rest.reverse
      (by simpa using vecPop_reverse_cons reg rest)]
    rw [lfnLoop_stop reg _ _ _ hreg]
    simp
  | cons l ls ih =>
    intro cur reg rest nb il h11 h0 hall hreg
    rw [lfnLoop_step cur _ nb il h11 h0 l ((ls ++ reg :: rest)).reverse
      (by simpa using vecPop_reverse_cons l (ls ++ reg :: rest))]
    rw [ih l reg rest _ true (hall l (by simp)).1 (hall l (by simp)).2
      (fun r hr => hall r (by simp [hr])) hreg]
    simp [List.append_assoc]

lemma lfnLoop_exhaust (lfns : List DirRec) :
    ∀ (cur : DirRec) (nb : List Nat) (il : Bool),
      recByte cur 11 = 0xF → recByte cur 0 ≠ 0xE5 →
      (∀ r ∈ lfns, recByte r 11 = 0xF ∧ recByte r 0 ≠ 0xE5) →
      lfnLoop cur lfns.reverse nb il = .panicked := by
  induction lfns with
  | nil =>
    intro cur nb il h11 h0 hall
    exact lfnLoop_panics cur _ _ _ h11 vecPop_nil
  | cons l ls ih =>
    intro cur nb il h11 h0 hall
    rw [lfnLoop_step cur _ nb il h11 h0 l ls.reverse
      (vecPop_reverse_cons l ls)]
    exact ih l _ true (hall l (by simp)).1 (hall l (by simp)).2
      (fun r hr => hall r (by simp [hr]))

lemma dirIterNext_cons (l0 : DirRec) (tail : List DirRec)
    (h0 : recByte l0 0 ≠ 0) (hE5 : recByte l0 0 ≠ 0xE5) :
    dirIterNext ((l0 :: tail).reverse) =
      match lfnLoop l0 tail.reverse [] false with
      | .panicked => .panic
      | .done reg entries3 nameBytes isLfn =>
        .entry (mkEntry reg
          (if isLfn then (decodeLfnName nameBytes.reverse).asString
           else (name83 reg).asString)) entries3 := by
  unfold dirIterNext
  simp [vecPop_concat, skipDeleted_pass l0 tail.reverse h0 hE5]

lemma reverse_flatten_map_rev (l : List DirRec) :
    ((l.map (fun r => (lfnChars r).reverse)).flatten).reverse =
      (l.reverse.map lfnChars).flatten := by
  rw [List.reverse_flatten]
  simp [List.map_map, Function.comp_def, List.map_reverse]

lemma dirNext_lfn_general (l0 : DirRec) (lfns : List DirRec) (reg : DirRec)
    (rest : List DirRec)
    (hall : ∀ r ∈ l0 :: lfns,
      recByte r 11 = 0xF ∧ recByte r 0 ≠ 0 ∧ recByte r 0 ≠ 0xE5)
    (hreg : recByte reg 11 ≠ 0xF) :
    dirIterNext (dirIterState ((l0 :: lfns) ++ reg :: rest)) =
      .entry (mkEntry reg
        (decodeLfnName (((l0 :: lfns).reverse.map lfnChars).flatten)).asString)
        rest.reverse := by
  have h11 := (hall l0 (by simp)).1
  have h0 := (hall l0 (by simp)).2.1
  have hE5 := (hall l0 (by simp)).2.2
  unfold dirIterState
  rw [show (l0 :: lfns) ++ reg :: rest = l0 :: (lfns ++ reg :: rest) from rfl]
  rw [dirIterNext_cons l0 _ h0 hE5]
  rw [lfnLoop_run lfns l0 reg rest [] false h11 hE5
    (fun r hr => ⟨(hall r (by simp [hr])).1, (hall r (by simp [hr])).2.2⟩)
    hreg]
  simp only [List.nil_append, if_pos]
  rw [reverse_flatten_map_rev]

/-- Claim C3, counterexample to the truncation rule as claimed: with a
0xFFFF unit before the first 0x0000 unit, the decoder does not truncate
at the 0xFFFF unit, so the produced name differs from the
spec-truncation decode of the accumulated character groups. -/
theorem lfn_truncation_counterexample_c3 :
    nextEntryName (dirIterNext (dirIterState ([lfnFFFF] ++ regLongName :: []))) ≠
      some ((specDecodeLfnName
        (([lfnFFFF].reverse.map lfnChars).flatten)).asString) := by
  rw [dirNext_lfn_general lfnFFFF [] regLongName [] (by decide) (by decide)]
  decide

/-- Claim C3 (amended): when one or more undeleted LFN continuation
records precede a regular record, the entry name is the accumulated
character groups, concatenated in ascending sequence order, paired into
UTF-16 code units, truncated at the first unit equal to 0x0000 or to
0x00FF (not 0xFFFF), and decoded with an underscore replacing every
undecodable unit (the decodeLfnName composition). -/
theorem dirNext_lfn_decode_c3_amended (l0 : DirRec) (lfns : List DirRec)
    (reg : DirRec) (rest : List DirRec)
    (hall : ∀ r ∈ l0 :: lfns,
      recByte r 11 = 0xF ∧ recByte r 0 ≠ 0 ∧ recByte r 0 ≠ 0xE5)
    (hreg : recByte reg 11 ≠ 0xF) :
    dirIterNext (dirIterState ((l0 :: lfns) ++ reg :: rest)) =
      .entry (mkEntry reg
        (decodeLfnName (((l0 :: lfns).reverse.map lfnChars).flatten)).asString)
        rest.reverse :=
  dirNext_lfn_general l0 lfns reg rest hall hreg

/-- Witness for the amended claim C3 at one concrete LFN record. -/
theorem dirNext_lfn_decode_c3_amended_witness :
    (∀ r ∈ [lfnSeq1],
      recByte r 11 = 0xF ∧ recByte r 0 ≠ 0 ∧ recByte r 0 ≠ 0xE5) ∧
    dirIterNext (dirIterState (([lfnSeq1] : List DirRec) ++ regLongName :: [])) =
      .entry (mkEntry regLongName
        (decodeLfnName ((([lfnSeq1] : List DirRec).reverse.map
          lfnChars).flatten)).asString)
        (List.reverse ([] : List DirRec)) :=
  ⟨by decide,
    dirNext_lfn_decode_c3_amended lfnSeq1 [] regLongName [] (by decide)
      (by decide)⟩

/-- Claim C4: two LFN continuation records carrying LONGFILENAME.TXT
split at the 13-character boundary, stored in descending sequence order
before the regular record, decode to exactly LONGFILENAME.TXT: the
groups concatenate in ascending sequence order, the reverse of storage
order. -/
theorem dirNext_longfilename_roundtrip_c4 :
    dirIterNext (dirIterState ([lfnSeq2, lfnSeq1] ++ regLongName :: [])) =
      .entry (mkEntry regLongName "LONGFILENAME.TXT") [] := by
  rw [dirNext_lfn_general lfnSeq2 [lfnSeq1] regLongName [] (by decide)
    (by decide)]
  decide

/-- Claim C9: a directory whose records are all undeleted LFN
continuations, with no regular record before the records run out, drives
DirIter::next into the pop().unwrap() panic instead of an error or end
of iteration. -/
theorem dirNext_trailing_lfn_panics_c9 (l0 : DirRec) (lfns : List DirRec)
    (hall : ∀ r ∈ l0 :: lfns,
      recByte r 11 = 0xF ∧ recByte r 0 ≠ 0 ∧ recByte r 0 ≠ 0xE5) :
    dirIterNext (dirIterState (l0 :: lfns)) = .panic := by
  have h11 := (hall l0 (by simp)).1
  have h0 := (hall l0 (by simp)).2.1
  have hE5 := (hall l0 (by simp)).2.2
  unfold dirIterState
  rw [dirIterNext_cons l0 lfns h0 hE5]
  rw [lfnLoop_exhaust lfns l0 [] false h11 hE5
    (fun r hr => ⟨(hall r (by simp [hr])).1, (hall r (by simp [hr])).2.2⟩)]

/-- Witness for claim C9 at one concrete trailing LFN record. -/
theorem dirNext_trailing_lfn_panics_c9_witness :
    (∀ r ∈ [lfnSeq2],
      recByte r 11 = 0xF ∧ recByte r 0 ≠ 0 ∧ recByte r 0 ≠ 0xE5) ∧
    dirIterNext (dirIterState ([lfnSeq2] : List DirRec)) = .panic :=
  ⟨by decide, dirNext_trailing_lfn_panics_c9 lfnSeq2 [] (by decide)⟩

/-! ### File facade theorems -/

lemma sub32_self (a : Nat) : sub32 a a = 0 := by
  simp [sub32]

lemma seek_current_zero (g : File) (hoff : g.offset ≤ g.metadata.size)
    (hm : g.offset < 2 ^ 32) :
    g.seek (.current 0) = (.ok g.offset, g) := by
  simp only [File.seek, File.seekTarget]
  rw [if_neg (by push_cast; omega)]
  have ht : ((g.offset : Int) + 0).toNat = g.offset := by omega
  simp only [ht]
  rw [Nat.mod_eq_of_lt hm]

/-- Claim C5: for a materialized file of size N (with at least N bytes of
chain data), seeking to N succeeds, a subsequent read copies zero bytes,
seeking to N + 1 fails with InvalidInput, any seek resolving to a
negative offset fails with InvalidInput, and a failed seek leaves the
file (hence its offset) unchanged. -/
theorem file_seek_read_boundary_c5 (f : File) (N : Nat) (d : List Nat)
    (buflen fuel : Nat)
    (hsize : f.metadata.size = N) (hN : N < 2 ^ 32)
    (hdata : f.data = some d) (hlen : N ≤ d.length) :
    f.seek (.start N) = (.ok N, { f with offset := N }) ∧
    ({ f with offset := N }).read buflen fuel =
      .ok ([], { f with offset := N }) ∧
    f.seek (.start (N + 1)) = (.error .invalidInput, f) ∧
    (∀ pos, f.seekTarget pos < 0 →
      f.seek pos = (.error .invalidInput, f)) := by
  have h64 : N % 2 ^ 64 = N := Nat.mod_eq_of_lt (by omega)
  have h64b : (N + 1) % 2 ^ 64 = N + 1 := Nat.mod_eq_of_lt (by omega)
  have h32 : N % 2 ^ 32 = N := Nat.mod_eq_of_lt hN
  refine ⟨?_, ?_, ?_, ?_⟩
  · simp only [File.seek, File.seekTarget, i64OfU64]
    rw [h64]
    rw [if_pos (show N < 2 ^ 63 by omega)]
    rw [if_neg (by push_cast [hsize]; omega)]
    simp [hsize, h32]
    omega
  · unfold File.read
    simp only [hdata, Option.isNone_some, Bool.false_eq_true, if_false,
      ite_false]
    simp only [hsize, sub32_self, Nat.min_zero]
    rw [if_pos (show N + 0 ≤ d.length by omega)]
    rw [show ((0 : Nat) : Int) = (0 : Int) from rfl]
    rw [seek_current_zero _ (by simp [hsize]) (by simpa using hN)]
    simp [hdata]
  · simp only [File.seek, File.seekTarget, i64OfU64]
    rw [h64b]
    rw [if_pos (show N + 1 < 2 ^ 63 by omega)]
    rw [if_pos (by push_cast [hsize]; omega)]
  · intro pos hneg
    unfold File.seek
    rw [if_pos (Or.inl hneg)]

/-- Claim C10: SeekFrom::End(k) resolves to size minus k, so a
non-negative k within the size succeeds positioning at N - k, and every
negative k resolves past the end and fails with InvalidInput. -/
theorem file_seek_end_inverted_c10 (f : File) (N : Nat) (k : Int)
    (hsize : f.metadata.size = N) (hN : N < 2 ^ 32) :
    f.seekTarget (.endRel k) = (N : Int) - k ∧
    (0 ≤ k → k ≤ (N : Int) →
      f.seek (.endRel k) =
        (.ok (N - k.toNat), { f with offset := N - k.toNat })) ∧
    (k < 0 → f.seek (.endRel k) = (.error .invalidInput, f)) := by
  refine ⟨by simp [File.seekTarget, hsize], ?_, ?_⟩
  · intro hk0 hkN
    unfold File.seek File.seekTarget
    rw [if_neg (by push_cast [hsize]; omega)]
    have ht : ((f.metadata.size : Int) - k).toNat = N - k.toNat := by
      rw [hsize]; omega
    have hm : (N - k.toNat) % 2 ^ 32 = N - k.toNat :=
      Nat.mod_eq_of_lt (by omega)
    simp [ht, hm]
    omega
  · intro hk
    unfold File.seek File.seekTarget
    rw [if_pos (by push_cast [hsize]; omega)]

/-- Claim C8, counterexample: create_file does not return an Unsupported
error to the caller; the unimplemented body panics. -/
theorem write_ops_counterexample_c8 :
    vOK.createFile "a" = Outcome.panic ∧
    (Outcome.panic : Outcome File) ≠ Outcome.error .unsupported :=
  ⟨rfl, fun h => Outcome.noConfusion h⟩

/-- Claim C8 (amended): every write-class operation (file write and
flush, sync, create_file, create_dir, rename, remove) panics through
unimplemented instead of returning an Unsupported error. -/
theorem write_ops_panic_c8_amended (v : VFat) (f : File) (p q : String)
    (parents children : Bool) (buf : List Nat) :
    v.createFile p = .panic ∧ v.createDir p parents = .panic ∧
    v.rename p q = .panic ∧ v.remove p children = .panic ∧
    f.write buf = .panic ∧ f.flush = .panic ∧ f.sync = .panic :=
  ⟨rfl, rfl, rfl, rfl, rfl, rfl, rfl⟩

/-- Witness for claim C5 at the concrete three-byte file. -/
theorem file_seek_read_boundary_c5_witness :
    (wFile.metadata.size = 3 ∧ (3 : Nat) < 2 ^ 32 ∧
      wFile.data = some [7, 7, 7] ∧
      (3 : Nat) ≤ ([7, 7, 7] : List Nat).length) ∧
    (wFile.seek (.start 3) = (.ok 3, { wFile with offset := 3 }) ∧
     ({ wFile with offset := 3 }).read 5 1 =
       .ok ([], { wFile with offset := 3 }) ∧
     wFile.seek (.start (3 + 1)) = (.error .invalidInput, wFile) ∧
     (∀ pos, wFile.seekTarget pos < 0 →
       wFile.seek pos = (.error .invalidInput, wFile))) :=
  ⟨⟨rfl, by norm_num, rfl, by norm_num⟩,
    file_seek_read_boundary_c5 wFile 3 [7, 7, 7] 5 1 rfl (by norm_num) rfl
      (by norm_num)⟩

/-- Witness for claim C10 at the concrete three-byte file, with an
in-range end offset 2 and a negative end offset -1. -/
theorem file_seek_end_inverted_c10_witness :
    (wFile.metadata.size = 3 ∧ (3 : Nat) < 2 ^ 32) ∧
    (wFile.seekTarget (.endRel 2) = (3 : Int) - 2 ∧
     wFile.seek (.endRel 2) =
       (.ok (3 - (2 : Int).toNat), { wFile with offset := 3 - (2 : Int).toNat }) ∧
     wFile.seek (.endRel (-1)) = (.error .invalidInput, wFile)) :=
  ⟨⟨rfl, by norm_num⟩,
    ⟨(file_seek_end_inverted_c10 wFile 3 2 rfl (by norm_num)).1,
     (file_seek_end_inverted_c10 wFile 3 2 rfl (by norm_num)).2.1
       (by norm_num) (by norm_num),
     (file_seek_end_inverted_c10 wFile 3 (-1) rfl (by norm_num)).2.2
       (by norm_num)⟩⟩

end Fat32
